import Mathlib

/-!
Verification of the Hermes reporting microservice's data-aggregation and
report-assembly pipeline, shallowly embedded from the repository sources
(src/generatepdf.py, src/main.py, src/schemas.py).

Python dicts are modelled as association lists in insertion order with
unique keys; dict update keeps the position of an existing key and updates
its value, while a fresh key is appended at the end (CPython semantics).
Strings are compared lexicographically by code point, as Python does.
-/

set_option linter.unusedVariables false

namespace Hermes

/-- A date-keyed inner mapping: category label → count (one day's data). -/
abbrev DayData := List (String × Nat)

/-- DateKeyedCategoryMapping: calendar date → (category label → count). -/
abbrev GroupedData := List (String × DayData)

/-- Python `d[k]` / `d.get(k)`: value of the first (unique) entry with key `k`. -/
def dictGet {β : Type} : List (String × β) → String → Option β
  | [], _ => none
  | p :: rest, k => if p.1 = k then some p.2 else dictGet rest k

/-- Python `d.get(k, v)`: lookup with default. -/
def dictGetD {β : Type} (d : List (String × β)) (k : String) (v : β) : β :=
  (dictGet d k).getD v

/-- Python `d[k] = v`: update the entry with key `k` in place, else append. -/
def dictSet {β : Type} : List (String × β) → String → β → List (String × β)
  | [], k, v => [(k, v)]
  | p :: rest, k, v => if p.1 = k then (k, v) :: rest else p :: dictSet rest k v

/-- Python `defaultdict(int)` update `d[k] += v`. -/
def dictIncr (d : DayData) (k : String) (v : Nat) : DayData :=
  dictSet d k (dictGetD d k 0 + v)

/-- A mapping is a valid stack of Python dicts: all key lists are duplicate-free. -/
def ValidMapping (m : GroupedData) : Prop :=
  (m.map Prod.fst).Nodup ∧ ∀ p ∈ m, (p.2.map Prod.fst).Nodup

instance (m : GroupedData) : Decidable (ValidMapping m) :=
  inferInstanceAs (Decidable (_ ∧ _))

/-- Sum of the values of an association list (`sum(d.values())`). -/
def sumValues (d : DayData) : Nat := (d.map Prod.snd).sum

-- ===== Aggregation Engine (src/generatepdf.py lines 270-278) =====

/-- Inner loop of `aggregate_grouped_values`: fold one day's entries into the
accumulator with `aggregated[key] += value`. -/
def addDay (acc : DayData) (day : DayData) : DayData :=
  day.foldl (fun a kv => dictIncr a kv.1 kv.2) acc

/-- Embeds `aggregate_grouped_values` (src/generatepdf.py lines 270-278):
aggregates values by key across all dates, starting from an empty
`defaultdict(int)`. -/
def aggregate_grouped_values (m : GroupedData) : DayData :=
  m.foldl (fun acc p => addDay acc p.2) []

/-- Whether category `c` occurs on some date of `m`. -/
def hasCategory (m : GroupedData) (c : String) : Bool :=
  m.any (fun p => p.2.any (fun kv => kv.1 = c))

/-- Spec-side total for a category: the sum over all dates of the recorded
count for `c` on that date, a missing category contributing 0. -/
def totalFor (m : GroupedData) (c : String) : Nat :=
  (m.map (fun p => dictGetD p.2 c 0)).sum

/-- Sum of the values of all entries of `day` whose key is `c`. -/
def sumAt (day : DayData) (c : String) : Nat :=
  ((day.filter (fun kv => kv.1 = c)).map Prod.snd).sum

-- ===== Dict lemmas =====

theorem dictGet_dictSet {β : Type} (d : List (String × β)) (k : String) (v : β) (c : String) :
    dictGet (dictSet d k v) c = if k = c then some v else dictGet d c := by
  induction d with
  | nil => by_cases hc : k = c <;> simp [dictSet, dictGet, hc]
  | cons p rest ih =>
    simp only [dictSet]
    by_cases h : p.1 = k
    · rw [if_pos h]
      by_cases hc : k = c
      · simp [dictGet, hc]
      · have hpc : ¬ p.1 = c := fun hpc => hc (h.symm.trans hpc)
        simp [dictGet, hc, hpc]
    · rw [if_neg h]
      by_cases hc : p.1 = c
      · have hkc : ¬ k = c := fun hkc => h (hc.trans hkc.symm)
        simp [dictGet, hc, hkc]
      · simp [dictGet, hc, ih]

theorem dictGet_dictIncr (d : DayData) (k : String) (v : Nat) (c : String) :
    dictGet (dictIncr d k v) c =
      if k = c then some (dictGetD d k 0 + v) else dictGet d c := by
  simp [dictIncr, dictGet_dictSet]

theorem dictIncr_cons_ne (p : String × Nat) (rest : DayData) (k : String) (v : Nat)
    (h : ¬ p.1 = k) : dictIncr (p :: rest) k v = p :: dictIncr rest k v := by
  simp [dictIncr, dictSet, dictGetD, dictGet, h]

theorem sumValues_dictIncr (d : DayData) (k : String) (v : Nat) :
    sumValues (dictIncr d k v) = sumValues d + v := by
  induction d with
  | nil => simp [dictIncr, dictSet, dictGetD, dictGet, sumValues]
  | cons p rest ih =>
    by_cases h : p.1 = k
    · simp [dictIncr, dictSet, dictGetD, dictGet, h, sumValues]
      omega
    · rw [dictIncr_cons_ne p rest k v h]
      simp [sumValues] at ih ⊢
      omega

theorem sumValues_addDay (day : DayData) :
    ∀ acc, sumValues (addDay acc day) = sumValues acc + sumValues day := by
  induction day with
  | nil => intro acc; simp [addDay, sumValues]
  | cons kv rest ih =>
    intro acc
    have hstep : addDay acc (kv :: rest) = addDay (dictIncr acc kv.1 kv.2) rest := rfl
    rw [hstep, ih, sumValues_dictIncr]
    simp [sumValues]
    omega

theorem sumValues_foldAgg (m : GroupedData) :
    ∀ acc, sumValues (m.foldl (fun a p => addDay a p.2) acc) =
      sumValues acc + (m.map (fun p => sumValues p.2)).sum := by
  induction m with
  | nil => intro acc; simp
  | cons p rest ih =>
    intro acc
    simp only [List.foldl_cons, List.map_cons, List.sum_cons]
    rw [ih (addDay acc p.2), sumValues_addDay]
    omega

theorem sumAt_eq_zero (day : DayData) (c : String) (h : ∀ kv ∈ day, ¬ kv.1 = c) :
    sumAt day c = 0 := by
  have : day.filter (fun kv => kv.1 = c) = [] := by
    rw [List.filter_eq_nil_iff]
    intro kv hkv
    simpa using h kv hkv
  simp [sumAt, this]

theorem dictGet_addDay (day : DayData) :
    ∀ acc c, dictGet (addDay acc day) c =
      if day.any (fun kv => kv.1 = c) then some (dictGetD acc c 0 + sumAt day c)
      else dictGet acc c := by
  induction day with
  | nil => intro acc c; simp [addDay]
  | cons kv rest ih =>
    intro acc c
    have hstep : addDay acc (kv :: rest) = addDay (dictIncr acc kv.1 kv.2) rest := rfl
    rw [hstep, ih]
    by_cases hk : kv.1 = c
    · have hgd : dictGetD (dictIncr acc kv.1 kv.2) c 0 = dictGetD acc c 0 + kv.2 := by
        simp [dictGetD, dictGet_dictIncr, hk]
      have hany : ((kv :: rest).any (fun kv => kv.1 = c)) = true := by
        simp [List.any_cons, hk]
      have hs : sumAt (kv :: rest) c = kv.2 + sumAt rest c := by
        simp [sumAt, List.filter_cons, hk]
      by_cases hr : rest.any (fun kv => kv.1 = c)
      · rw [if_pos hr, if_pos hany, hgd, hs]
        exact congrArg some (by omega)
      · have hz : sumAt rest c = 0 := by
          apply sumAt_eq_zero
          intro kv' hkv' hc
          exact hr (List.any_eq_true.2 ⟨kv', hkv', by simp [hc]⟩)
        rw [if_neg hr, if_pos hany, hs, hz, dictGet_dictIncr, if_pos hk]
        have hkk : dictGetD acc kv.1 0 = dictGetD acc c 0 := by rw [hk]
        rw [hkk]
        exact congrArg some (by omega)
    · have hgd : dictGetD (dictIncr acc kv.1 kv.2) c 0 = dictGetD acc c 0 := by
        simp [dictGetD, dictGet_dictIncr, hk]
      have hdg : dictGet (dictIncr acc kv.1 kv.2) c = dictGet acc c := by
        simp [dictGet_dictIncr, hk]
      have hany : ((kv :: rest).any (fun kv => kv.1 = c)) = (rest.any (fun kv => kv.1 = c)) := by
        simp [List.any_cons, hk]
      have hs : sumAt (kv :: rest) c = sumAt rest c := by
        simp [sumAt, List.filter_cons, hk]
      by_cases hr : rest.any (fun kv => kv.1 = c)
      · rw [if_pos hr, hany, if_pos hr, hgd, hs]
      · rw [if_neg hr, hany, if_neg hr, hdg]

theorem dictGet_foldAgg (m : GroupedData) :
    ∀ acc c, dictGet (m.foldl (fun a p => addDay a p.2) acc) c =
      if hasCategory m c then some (dictGetD acc c 0 + (m.map (fun p => sumAt p.2 c)).sum)
      else dictGet acc c := by
  induction m with
  | nil => intro acc c; simp [hasCategory]
  | cons p rest ih =>
    intro acc c
    simp only [List.foldl_cons]
    rw [ih]
    by_cases hp : p.2.any (fun kv => kv.1 = c)
    · have hcat : hasCategory (p :: rest) c = true := by
        simp [hasCategory, List.any_cons, hp]
      by_cases hr : hasCategory rest c
      · have hgd : dictGetD (addDay acc p.2) c 0 = dictGetD acc c 0 + sumAt p.2 c := by
          simp [dictGetD, dictGet_addDay, hp]
        rw [if_pos hr, if_pos hcat, hgd]
        simp only [List.map_cons, List.sum_cons]
        exact congrArg some (by omega)
      · have hz : (rest.map (fun p => sumAt p.2 c)).sum = 0 := by
          rw [List.sum_eq_zero]
          intro x hx
          obtain ⟨q, hq, hqx⟩ := List.mem_map.1 hx
          have : ∀ kv ∈ q.2, ¬ kv.1 = c := by
            intro kv hkv hc
            exact hr (List.any_eq_true.2 ⟨q, hq, List.any_eq_true.2 ⟨kv, hkv, by simp [hc]⟩⟩)
          rw [← hqx]
          exact sumAt_eq_zero q.2 c this
        rw [if_neg hr, if_pos hcat, dictGet_addDay, if_pos hp]
        simp only [List.map_cons, List.sum_cons, hz]
        exact congrArg some (by omega)
    · have hcat : hasCategory (p :: rest) c = hasCategory rest c := by
        simp [hasCategory, List.any_cons, hp]
      have hgd : dictGetD (addDay acc p.2) c 0 = dictGetD acc c 0 := by
        simp [dictGetD, dictGet_addDay, hp]
      have hdg : dictGet (addDay acc p.2) c = dictGet acc c := by
        simp [dictGet_addDay, hp]
      have hz : sumAt p.2 c = 0 := by
        apply sumAt_eq_zero
        intro kv hkv hc
        exact hp (List.any_eq_true.2 ⟨kv, hkv, by simp [hc]⟩)
      simp only [hcat]
      by_cases hr : hasCategory rest c
      · rw [if_pos hr, if_pos hr, hgd]
        simp only [List.map_cons, List.sum_cons, hz]
        exact congrArg some (by omega)
      · rw [if_neg hr, if_neg hr, hdg]

theorem sumAt_eq_getD (day : DayData) (c : String) (h : (day.map Prod.fst).Nodup) :
    sumAt day c = dictGetD day c 0 := by
  induction day with
  | nil => simp [sumAt, dictGetD, dictGet]
  | cons kv rest ih =>
    simp only [List.map_cons, List.nodup_cons] at h
    by_cases hk : kv.1 = c
    · have hz : sumAt rest c = 0 := by
        apply sumAt_eq_zero
        intro kv' hkv' hc
        exact h.1 (hk ▸ hc ▸ List.mem_map_of_mem Prod.fst hkv')

      have hs : sumAt (kv :: rest) c = kv.2 + sumAt rest c := by
        simp [sumAt, List.filter_cons, hk]
      simp [hs, hz, dictGetD, dictGet, hk]
    · have hs : sumAt (kv :: rest) c = sumAt rest c := by
        simp [sumAt, List.filter_cons, hk]
      simp [hs, dictGetD, dictGet, hk, ih h.2]

theorem aggregate_key_spec (m : GroupedData) (c : String) (hv : ValidMapping m) :
    dictGet (aggregate_grouped_values m) c =
      if hasCategory m c then some (totalFor m c) else none := by
  have h := dictGet_foldAgg m [] c
  simp only [aggregate_grouped_values] at *
  rw [h]
  have hgd : dictGetD ([] : DayData) c 0 = 0 := by simp [dictGetD, dictGet]
  have ht : (m.map (fun p => sumAt p.2 c)).sum = totalFor m c := by
    unfold totalFor
    congr 1
    apply List.map_congr_left
    intro p hp
    exact sumAt_eq_getD p.2 c (hv.2 p hp)
  by_cases hc : hasCategory m c <;> simp [hc, hgd, ht, dictGet]

/-- The concrete example mapping from the spec's testable properties. -/
def mEx : GroupedData := [("d1", [("a", 1), ("b", 2)]), ("d2", [("a", 3)])]

-- ===== String comparison (Python compares strings by code point) =====

/-- Lexicographic comparison of character lists by code point, the order
Python uses on strings (a proper prefix sorts first). -/
def lexLe : List Char → List Char → Bool
  | [], _ => true
  | _ :: _, [] => false
  | a :: as, b :: bs =>
    if a.toNat < b.toNat then true
    else if b.toNat < a.toNat then false
    else lexLe as bs

/-- Python string order `a <= b`. -/
def strLe (a b : String) : Prop := lexLe a.data b.data = true

instance : DecidableRel strLe := fun a b => inferInstanceAs (Decidable (_ = true))

theorem lexLe_total (a : List Char) : ∀ b, lexLe a b = true ∨ lexLe b a = true := by
  induction a with
  | nil => intro b; left; rfl
  | cons x xs ih =>
    intro b
    cases b with
    | nil => right; rfl
    | cons y ys =>
      by_cases h1 : x.toNat < y.toNat
      · left; simp [lexLe, h1]
      · by_cases h2 : y.toNat < x.toNat
        · right; simp [lexLe, h2]
        · rcases ih ys with h | h
          · left; simp [lexLe, h1, h2, h]
          · right; simp [lexLe, h1, h2, h]

theorem lexLe_trans (a : List Char) :
    ∀ b c, lexLe a b = true → lexLe b c = true → lexLe a c = true := by
  induction a with
  | nil => intro b c _ _; rfl
  | cons x xs ih =>
    intro b c h1 h2
    cases b with
    | nil => simp [lexLe] at h1
    | cons y ys =>
      cases c with
      | nil => simp [lexLe] at h2
      | cons z zs =>
        simp only [lexLe] at h1 h2 ⊢
        by_cases hxy : x.toNat < y.toNat
        · by_cases hyz : y.toNat < z.toNat
          · have hxz : x.toNat < z.toNat := Nat.lt_trans hxy hyz
            simp [hxz]
          · by_cases hzy : z.toNat < y.toNat
            · simp [hyz, hzy] at h2
            · have hyz' : y.toNat = z.toNat :=
                Nat.le_antisymm (Nat.not_lt.1 hzy) (Nat.not_lt.1 hyz)
              have hxz : x.toNat < z.toNat := hyz' ▸ hxy
              simp [hxz]
        · by_cases hyx : y.toNat < x.toNat
          · simp [hxy, hyx] at h1
          · have hxy' : x.toNat = y.toNat :=
              Nat.le_antisymm (Nat.not_lt.1 hyx) (Nat.not_lt.1 hxy)
            simp only [hxy, if_false, hyx] at h1
            by_cases hyz : y.toNat < z.toNat
            · have hxz : x.toNat < z.toNat := hxy' ▸ hyz
              simp [hxz]
            · by_cases hzy : z.toNat < y.toNat
              · simp [hyz, hzy] at h2
              · have hyz' : y.toNat = z.toNat :=
                  Nat.le_antisymm (Nat.not_lt.1 hzy) (Nat.not_lt.1 hyz)
                simp only [hyz, if_false, hzy] at h2
                have hxz1 : ¬ x.toNat < z.toNat := by omega
                have hxz2 : ¬ z.toNat < x.toNat := by omega
                simp only [hxz1, if_false, hxz2]
                exact ih ys zs h1 h2

instance : IsTotal String strLe := ⟨fun a b => lexLe_total a.data b.data⟩

instance : IsTrans String strLe := ⟨fun a b c => lexLe_trans a.data b.data c.data⟩

/-- Python `sorted` on a duplicate-free list of strings: the unique
ascending reordering, realized as an insertion sort over `strLe`. -/
def sortStrings (l : List String) : List String := List.insertionSort strLe l

theorem sortStrings_sorted (l : List String) : (sortStrings l).Sorted strLe :=
  List.sorted_insertionSort strLe l

theorem sortStrings_perm (l : List String) : (sortStrings l).Perm l :=
  List.perm_insertionSort strLe l

-- ===== prepare_multiline_grouped_data (src/generatepdf.py lines 245-268) =====

/-- The `"null"` → `"None"` display renaming applied to category labels. -/
def normLabel (k : String) : String := if k = "null" then "None" else k

/-- Python `set.add`: the key-set accumulator, realized as a duplicate-free
list in first-occurrence order. -/
def setAdd (a : List String) (k : String) : List String :=
  if k ∈ a then a else a ++ [k]

/-- The union of category labels across all dates
(`keys.update(values.keys())` over the whole mapping). -/
def unionKeysSet (m : GroupedData) : List String :=
  m.foldl (fun acc p => p.2.foldl (fun a kv => setAdd a kv.1) acc) []

/-- The key-set fix-up `if "null" in keys: keys.remove("null"); keys.add("None")`. -/
def fixKeys (keys : List String) : List String :=
  if "null" ∈ keys then
    let k2 := keys.filter (fun s => s ≠ "null")
    if "None" ∈ k2 then k2 else k2 ++ ["None"]
  else keys

/-- One date's normalized values: each entry inserted under its renamed
label, later entries overwriting earlier ones on key collision
(`normalized_values[normalized_key] = v` in insertion order). -/
def normalizeDay (day : DayData) : DayData :=
  day.foldl (fun nv kv => dictSet nv (normLabel kv.1) kv.2) []

/-- The local `normalized_grouped_data` of `prepare_multiline_grouped_data`:
the same dates in order, each day's values renamed. -/
def normalizedOf (m : GroupedData) : GroupedData :=
  m.map (fun p => (p.1, normalizeDay p.2))

/-- The local `x_values`: `sorted(normalized_grouped_data.keys())`. -/
def xValuesOf (m : GroupedData) : List String :=
  sortStrings ((normalizedOf m).map Prod.fst)

/-- The local `y_series`. The source builds `y_series[k]` by appending
`day_data.get(k, 0)` for each date of the sorted x-axis in turn; as the
key set is duplicate-free, that per-date loop produces exactly the
per-key map below. -/
def seriesOf (m : GroupedData) : List (String × List Nat) :=
  (fixKeys (unionKeysSet m)).map
    (fun k => (k, (xValuesOf m).map
      (fun date => dictGetD (dictGetD (normalizedOf m) date []) k 0)))

/-- Embeds `prepare_multiline_grouped_data` (src/generatepdf.py lines
245-268): converts date-keyed data into `(x_values, y_series)`. -/
def prepare_multiline_grouped_data (m : GroupedData) :
    List String × List (String × List Nat) :=
  (xValuesOf m, seriesOf m)

/-- Spec-side reading of "the recorded count for that category on that
date, or 0 if absent": the value of the (unique) entry of the day whose
normalized label is `c`, defaulting to 0. -/
def recordedCount (day : DayData) (c : String) : Nat :=
  ((day.find? (fun kv => normLabel kv.1 == c)).map Prod.snd).getD 0

/-- No date's mapping contains both the label `"null"` and the literal
label `"None"`; on such a collision the renaming loses one count. -/
def NoNullNoneClash (m : GroupedData) : Prop :=
  ∀ p ∈ m, ¬(("null" ∈ p.2.map Prod.fst) ∧ ("None" ∈ p.2.map Prod.fst))

instance (m : GroupedData) : Decidable (NoNullNoneClash m) :=
  inferInstanceAs (Decidable (∀ p ∈ m, ¬ _))

-- ===== Lemmas about the series construction =====

theorem dictGet_mapPairs {γ : Type} (keys : List String) (f : String → γ) (c : String) :
    dictGet (keys.map (fun k => (k, f k))) c = if c ∈ keys then some (f c) else none := by
  induction keys with
  | nil => simp [dictGet]
  | cons k rest ih =>
    by_cases h : k = c
    · simp [dictGet, h]
    · have hck : ¬ c = k := fun hh => h hh.symm
      simp [dictGet, h, hck, ih]

theorem dictGet_mapVal {β γ : Type} (m : List (String × β)) (g : β → γ) (c : String) :
    dictGet (m.map (fun p => (p.1, g p.2))) c = (dictGet m c).map g := by
  induction m with
  | nil => simp [dictGet]
  | cons p rest ih =>
    by_cases h : p.1 = c <;> simp [dictGet, h, ih]

theorem dictGet_of_mem_nodup {β : Type} (m : List (String × β)) :
    ∀ (k : String) (b : β), (m.map Prod.fst).Nodup → (k, b) ∈ m → dictGet m k = some b := by
  induction m with
  | nil => intro k b _ hmem; simp at hmem
  | cons p rest ih =>
    intro k b hnd hmem
    simp only [List.map_cons, List.nodup_cons] at hnd
    rcases List.mem_cons.1 hmem with h | h
    · rw [← h]
      simp [dictGet]
    · have hne : ¬ p.1 = k := by
        intro hh
        exact hnd.1 (hh.symm ▸ (List.mem_map_of_mem Prod.fst h))
      simp [dictGet, hne, ih k b hnd.2 h]

theorem mem_of_dictGet {β : Type} (m : List (String × β)) :
    ∀ (k : String) (b : β), dictGet m k = some b → (k, b) ∈ m := by
  induction m with
  | nil => intro k b h; simp [dictGet] at h
  | cons p rest ih =>
    intro k b h
    simp only [dictGet] at h
    by_cases hp : p.1 = k
    · rw [if_pos hp] at h
      have : p = (k, b) := by
        rcases p with ⟨p1, p2⟩
        simp at h hp
        rw [hp, h]
      rw [← this]
      exact List.mem_cons_self p rest
    · rw [if_neg hp] at h
      exact List.mem_cons_of_mem p (ih k b h)

theorem dictGet_some_of_mem_keys {β : Type} (m : List (String × β)) :
    ∀ c, c ∈ m.map Prod.fst → ∃ b, dictGet m c = some b ∧ (c, b) ∈ m := by
  induction m with
  | nil => intro c hc; simp at hc
  | cons p rest ih =>
    intro c hc
    by_cases h : p.1 = c
    · refine ⟨p.2, by simp [dictGet, h], ?_⟩
      rw [← h]
      simp
    · simp only [List.map_cons, List.mem_cons] at hc
      rcases hc with hc | hc
      · exact absurd hc.symm h
      · obtain ⟨b, h1, h2⟩ := ih c hc
        exact ⟨b, by simp [dictGet, h, h1], List.mem_cons_of_mem p h2⟩

theorem dictSet_fresh {β : Type} (acc : List (String × β)) (k : String) (v : β)
    (h : k ∉ acc.map Prod.fst) : dictSet acc k v = acc ++ [(k, v)] := by
  induction acc with
  | nil => rfl
  | cons p rest ih =>
    simp only [List.map_cons, List.mem_cons] at h
    push_neg at h
    have hp : ¬ p.1 = k := fun hh => h.1 hh.symm
    simp [dictSet, hp, ih h.2]

theorem foldl_dictSet_fresh {β : Type} (l : List (String × β)) :
    ∀ acc, (l.map Prod.fst).Nodup → (∀ kv ∈ l, kv.1 ∉ acc.map Prod.fst) →
    l.foldl (fun nv kv => dictSet nv kv.1 kv.2) acc = acc ++ l := by
  induction l with
  | nil => intro acc _ _; simp
  | cons kv rest ih =>
    intro acc hnd hfresh
    simp only [List.map_cons, List.nodup_cons] at hnd
    simp only [List.foldl_cons]
    rw [dictSet_fresh acc kv.1 kv.2 (hfresh kv (List.mem_cons_self kv rest))]
    have hstep : acc ++ [(kv.1, kv.2)] = acc ++ [kv] := by simp
    rw [hstep, ih (acc ++ [kv]) hnd.2 ?_]
    · simp
    · intro kv' hkv'
      simp only [List.map_append, List.mem_append, List.map_cons, List.map_nil,
        List.mem_singleton]
      push_neg
      refine ⟨hfresh kv' (List.mem_cons_of_mem kv hkv'), ?_⟩
      intro hh
      exact hnd.1 (hh ▸ List.mem_map_of_mem Prod.fst hkv')

/-- The entry-wise renaming as a plain map over pairs. -/
def normPair (kv : String × Nat) : String × Nat := (normLabel kv.1, kv.2)

theorem normKeys_nodup (day : DayData) (hnd : (day.map Prod.fst).Nodup)
    (hcl : ¬(("null" ∈ day.map Prod.fst) ∧ ("None" ∈ day.map Prod.fst))) :
    ((day.map normPair).map Prod.fst).Nodup := by
  have hmm : (day.map normPair).map Prod.fst = (day.map Prod.fst).map normLabel := by
    simp [List.map_map, normPair, Function.comp]
  rw [hmm]
  apply List.Nodup.map_on ?_ hnd
  intro x hx y hy hxy
  unfold normLabel at hxy
  by_cases hxn : x = "null"
  · by_cases hyn : y = "null"
    · rw [hxn, hyn]
    · rw [if_pos hxn, if_neg hyn] at hxy
      exact absurd ⟨hxn ▸ hx, hxy.symm ▸ hy⟩ hcl
  · by_cases hyn : y = "null"
    · rw [if_neg hxn, if_pos hyn] at hxy
      exact absurd ⟨hyn ▸ hy, hxy ▸ hx⟩ hcl
    · rw [if_neg hxn, if_neg hyn] at hxy
      exact hxy

theorem normalizeDay_eq_map (day : DayData) (hnd : (day.map Prod.fst).Nodup)
    (hcl : ¬(("null" ∈ day.map Prod.fst) ∧ ("None" ∈ day.map Prod.fst))) :
    normalizeDay day = day.map normPair := by
  have h1 : normalizeDay day =
      (day.map normPair).foldl (fun nv kv => dictSet nv kv.1 kv.2) [] := by
    rw [List.foldl_map]
    rfl
  rw [h1, foldl_dictSet_fresh (day.map normPair) [] (normKeys_nodup day hnd hcl) ?_]
  · simp
  · intro kv hkv
    simp

theorem dictGet_map_normPair (day : DayData) (c : String) :
    dictGet (day.map normPair) c =
      (day.find? (fun kv => normLabel kv.1 == c)).map Prod.snd := by
  induction day with
  | nil => simp [dictGet]
  | cons kv rest ih =>
    by_cases h : normLabel kv.1 = c
    · rw [List.find?_cons_of_pos _ (by simp [h])]
      simp [dictGet, normPair, h]
    · rw [List.find?_cons_of_neg _ (by simp [h])]
      simp only [List.map_cons]
      rw [← ih]
      simp [dictGet, normPair, h]

theorem mapFst_normalizedOf (m : GroupedData) :
    (normalizedOf m).map Prod.fst = m.map Prod.fst := by
  simp [normalizedOf, List.map_map, Function.comp]

theorem xValuesOf_sorted (m : GroupedData) : (xValuesOf m).Sorted strLe :=
  sortStrings_sorted _

theorem xValuesOf_perm (m : GroupedData) : (xValuesOf m).Perm (m.map Prod.fst) := by
  unfold xValuesOf
  rw [mapFst_normalizedOf]
  exact sortStrings_perm _

theorem seriesOf_keys (m : GroupedData) :
    (seriesOf m).map Prod.fst = fixKeys (unionKeysSet m) := by
  unfold seriesOf
  rw [List.map_map]
  show List.map id (fixKeys (unionKeysSet m)) = fixKeys (unionKeysSet m)
  exact List.map_id _

-- ===== Membership and nodup lemmas for the key set =====

theorem mem_setAdd (a : List String) (k c : String) :
    c ∈ setAdd a k ↔ c ∈ a ∨ c = k := by
  unfold setAdd
  by_cases h : k ∈ a
  · rw [if_pos h]
    constructor
    · exact Or.inl
    · rintro (hc | hc)
      · exact hc
      · rw [hc]; exact h
  · rw [if_neg h]
    simp [List.mem_append]

theorem mem_innerFold (l : DayData) :
    ∀ (a : List String) (c : String),
      c ∈ l.foldl (fun a kv => setAdd a kv.1) a ↔ c ∈ a ∨ ∃ kv ∈ l, kv.1 = c := by
  induction l with
  | nil => intro a c; simp
  | cons kv rest ih =>
    intro a c
    simp only [List.foldl_cons]
    rw [ih, mem_setAdd]
    constructor
    · rintro ((h | h) | h)
      · exact Or.inl h
      · exact Or.inr ⟨kv, List.mem_cons_self kv rest, h.symm⟩
      · obtain ⟨kv', hm, he⟩ := h
        exact Or.inr ⟨kv', List.mem_cons_of_mem kv hm, he⟩
    · rintro (h | ⟨kv', hm, he⟩)
      · exact Or.inl (Or.inl h)
      · rcases List.mem_cons.1 hm with hh | hh
        · exact Or.inl (Or.inr (hh ▸ he).symm)
        · exact Or.inr ⟨kv', hh, he⟩

theorem mem_unionKeysSet (m : GroupedData) (c : String) :
    c ∈ unionKeysSet m ↔ ∃ p ∈ m, ∃ kv ∈ p.2, kv.1 = c := by
  unfold unionKeysSet
  suffices h : ∀ acc,
      c ∈ m.foldl (fun acc p => p.2.foldl (fun a kv => setAdd a kv.1) acc) acc ↔
        c ∈ acc ∨ ∃ p ∈ m, ∃ kv ∈ p.2, kv.1 = c by
    rw [h []]
    simp
  induction m with
  | nil => intro acc; simp
  | cons p rest ih =>
    intro acc
    simp only [List.foldl_cons]
    rw [ih, mem_innerFold]
    constructor
    · rintro (h | h)
      · rcases h with h | h
        · exact Or.inl h
        · exact Or.inr ⟨p, List.mem_cons_self p rest, h⟩
      · obtain ⟨q, hq, hkv⟩ := h
        exact Or.inr ⟨q, List.mem_cons_of_mem p hq, hkv⟩
    · rintro (h | ⟨q, hq, hkv⟩)
      · exact Or.inl (Or.inl h)
      · rcases List.mem_cons.1 hq with hh | hh
        · exact Or.inl (Or.inr (hh ▸ hkv))
        · exact Or.inr ⟨q, hh, hkv⟩

theorem nodup_setAdd (a : List String) (k : String) (h : a.Nodup) : (setAdd a k).Nodup := by
  unfold setAdd
  by_cases hk : k ∈ a
  · rw [if_pos hk]; exact h
  · rw [if_neg hk]
    simp [List.nodup_append, h, hk]

theorem nodup_innerFold (l : DayData) :
    ∀ a : List String, a.Nodup → (l.foldl (fun a kv => setAdd a kv.1) a).Nodup := by
  induction l with
  | nil => intro a h; exact h
  | cons kv rest ih =>
    intro a h
    exact ih _ (nodup_setAdd a kv.1 h)

theorem nodup_unionKeysSet (m : GroupedData) : (unionKeysSet m).Nodup := by
  unfold unionKeysSet
  suffices h : ∀ acc : List String, acc.Nodup →
      (m.foldl (fun acc p => p.2.foldl (fun a kv => setAdd a kv.1) acc) acc).Nodup by
    exact h [] List.nodup_nil
  induction m with
  | nil => intro acc h; exact h
  | cons p rest ih =>
    intro acc h
    exact ih _ (nodup_innerFold p.2 acc h)

theorem mem_fixKeys (keys : List String) (c : String) :
    c ∈ fixKeys keys ↔ (c ∈ keys ∧ c ≠ "null") ∨ ("null" ∈ keys ∧ c = "None") := by
  unfold fixKeys
  by_cases hn : "null" ∈ keys
  · simp only [if_pos hn]
    by_cases hN : "None" ∈ keys.filter (fun s => s ≠ "null")
    · rw [if_pos hN]
      rw [List.mem_filter] at hN
      simp only [List.mem_filter, decide_eq_true_eq] at hN ⊢
      constructor
      · rintro ⟨h1, h2⟩
        exact Or.inl ⟨h1, h2⟩
      · rintro (⟨h1, h2⟩ | ⟨h1, h2⟩)
        · exact ⟨h1, h2⟩
        · rw [h2]
          exact ⟨hN.1, hN.2⟩
    · rw [if_neg hN]
      simp only [List.mem_append, List.mem_filter, List.mem_singleton, decide_eq_true_eq]
      constructor
      · rintro (⟨h1, h2⟩ | h)
        · exact Or.inl ⟨h1, h2⟩
        · exact Or.inr ⟨hn, h⟩
      · rintro (⟨h1, h2⟩ | ⟨h1, h2⟩)
        · exact Or.inl ⟨h1, h2⟩
        · exact Or.inr h2
  · simp only [if_neg hn]
    constructor
    · intro h
      by_cases hcn : c = "null"
      · exact absurd (hcn ▸ h) hn
      · exact Or.inl ⟨h, hcn⟩
    · rintro (⟨h1, _⟩ | ⟨h1, _⟩)
      · exact h1
      · exact absurd h1 hn

theorem nodup_fixKeys (keys : List String) (h : keys.Nodup) : (fixKeys keys).Nodup := by
  unfold fixKeys
  by_cases hn : "null" ∈ keys
  · rw [if_pos hn]
    have hf : (keys.filter (fun s => s ≠ "null")).Nodup := h.filter _
    by_cases hN : "None" ∈ keys.filter (fun s => s ≠ "null")
    · rw [if_pos hN]
      exact hf
    · rw [if_neg hN]
      rw [List.nodup_append]
      refine ⟨hf, List.nodup_singleton _, ?_⟩
      intro x hx hx'
      rw [List.mem_singleton] at hx'
      exact hN (hx' ▸ hx)
  · rw [if_neg hn]
    exact h

theorem mem_seriesKeys (m : GroupedData) (c : String) :
    c ∈ fixKeys (unionKeysSet m) ↔ ∃ p ∈ m, ∃ kv ∈ p.2, normLabel kv.1 = c := by
  rw [mem_fixKeys]
  constructor
  · rintro (⟨h1, h2⟩ | ⟨h1, h2⟩)
    · obtain ⟨p, hp, kv, hkv, he⟩ := (mem_unionKeysSet m c).1 h1
      refine ⟨p, hp, kv, hkv, ?_⟩
      rw [normLabel, he, if_neg h2]
    · obtain ⟨p, hp, kv, hkv, he⟩ := (mem_unionKeysSet m "null").1 h1
      refine ⟨p, hp, kv, hkv, ?_⟩
      rw [normLabel, he, if_pos rfl]
      exact h2.symm
  · rintro ⟨p, hp, kv, hkv, he⟩
    by_cases hkn : kv.1 = "null"
    · refine Or.inr ⟨(mem_unionKeysSet m "null").2 ⟨p, hp, kv, hkv, hkn⟩, ?_⟩
      rw [← he, normLabel, if_pos hkn]
    · refine Or.inl ⟨?_, ?_⟩
      · have hkc : kv.1 = c := by
          rw [← he, normLabel, if_neg hkn]
        exact (mem_unionKeysSet m c).2 ⟨p, hp, kv, hkv, hkc⟩
      · intro hcn
        rw [← he, normLabel, if_neg hkn] at hcn
        exact hkn hcn

-- ===== The per-category series value =====

theorem prepare_series_value (m : GroupedData) (hv : ValidMapping m)
    (hcl : NoNullNoneClash m) (c : String)
    (hc : c ∈ (prepare_multiline_grouped_data m).2.map Prod.fst) :
    dictGet (prepare_multiline_grouped_data m).2 c =
      some ((prepare_multiline_grouped_data m).1.map
        (fun d => recordedCount (dictGetD m d []) c)) := by
  have hc' : c ∈ fixKeys (unionKeysSet m) := by
    rw [← seriesOf_keys m]
    exact hc
  have h1 : dictGet (prepare_multiline_grouped_data m).2 c =
      some ((xValuesOf m).map
        (fun date => dictGetD (dictGetD (normalizedOf m) date []) c 0)) := by
    show dictGet (seriesOf m) c = _
    unfold seriesOf
    rw [dictGet_mapPairs, if_pos hc']
  rw [h1]
  show _ = some ((xValuesOf m).map (fun d => recordedCount (dictGetD m d []) c))
  refine congrArg some (List.map_congr_left ?_)
  intro d hd
  have hdm : d ∈ m.map Prod.fst := ((xValuesOf_perm m).mem_iff).1 hd
  obtain ⟨day, hget, hmem⟩ := dictGet_some_of_mem_keys m d hdm
  have hnorm : dictGet (normalizedOf m) d = some (normalizeDay day) := by
    unfold normalizedOf
    rw [dictGet_mapVal, hget]
    rfl
  have hday : dictGetD m d [] = day := by
    simp [dictGetD, hget]
  have hnd : (day.map Prod.fst).Nodup := hv.2 (d, day) hmem
  have hclday : ¬(("null" ∈ day.map Prod.fst) ∧ ("None" ∈ day.map Prod.fst)) :=
    hcl (d, day) hmem
  rw [hday]
  have h2 : dictGetD (normalizedOf m) d [] = normalizeDay day := by
    simp [dictGetD, hnorm]
  rw [h2, normalizeDay_eq_map day hnd hclday]
  unfold dictGetD recordedCount
  rw [dictGet_map_normPair]

-- ===== Claim theorems: aggregation =====

/-- Claim C2: `aggregate_grouped_values` returns a mapping whose key set is
exactly the union of category labels across all dates, each category mapped
to the sum of its counts over the dates where it appears (a missing
category contributing 0); the empty mapping aggregates to the empty
mapping, and the spec's concrete example evaluates as stated. -/
theorem C2_aggregate_union_sums :
    (∀ (m : GroupedData) (c : String), ValidMapping m →
      dictGet (aggregate_grouped_values m) c =
        if hasCategory m c then some (totalFor m c) else none)
    ∧ aggregate_grouped_values [] = []
    ∧ aggregate_grouped_values mEx = [("a", 4), ("b", 2)] :=
  ⟨fun m c hv => aggregate_key_spec m c hv, rfl, by decide⟩

/-- Witness for C2 at the spec's concrete example mapping. -/
theorem C2_aggregate_union_sums_witness :
    ValidMapping mEx ∧
    dictGet (aggregate_grouped_values mEx) "a" =
      (if hasCategory mEx "a" then some (totalFor mEx "a") else none) :=
  ⟨by decide, C2_aggregate_union_sums.1 mEx "a" (by decide)⟩

/-- Claim C8: conservation of the total alert count — the sum of the values
of the aggregate equals the sum over all dates of that day's total. -/
theorem C8_aggregate_conservation (m : GroupedData) (hv : ValidMapping m) :
    sumValues (aggregate_grouped_values m) = (m.map (fun p => sumValues p.2)).sum := by
  have h := sumValues_foldAgg m []
  unfold aggregate_grouped_values
  rw [h]
  simp [sumValues]

/-- Witness for C8 at the spec's concrete example mapping. -/
theorem C8_aggregate_conservation_witness :
    ValidMapping mEx ∧
    sumValues (aggregate_grouped_values mEx) = (mEx.map (fun p => sumValues p.2)).sum :=
  ⟨by decide, C8_aggregate_conservation mEx (by decide)⟩

-- ===== Claim theorems: time-series preparation =====

/-- The concrete example mapping from the spec's `toTimeSeries` example. -/
def mEx2 : GroupedData := [("2025-03-07", [("a", 3)]), ("2025-03-06", [("a", 1), ("b", 2)])]

/-- Claim C1 (amended): for every valid mapping in which no date carries
both the labels `"null"` and `"None"`, the x-axis is the date keys sorted
ascending in lexical string order, the series keys are exactly (and once
each) the union of category labels with `"null"` renamed to `"None"`, and
each series lists, date by sorted date, the recorded count for that
category or 0 if absent; the empty mapping yields empty output, and the
spec's concrete example evaluates as stated. (Unrestricted, the claim
fails when a date carries both `"null"` and `"None"`: the renaming makes
the two labels collide and one recorded count is dropped.) -/
theorem C1_toTimeSeries_spec :
    (∀ m : GroupedData, ValidMapping m → NoNullNoneClash m →
      ((prepare_multiline_grouped_data m).1.Sorted strLe
        ∧ (prepare_multiline_grouped_data m).1.Perm (m.map Prod.fst))
      ∧ ((prepare_multiline_grouped_data m).2.map Prod.fst).Nodup
      ∧ (∀ c, c ∈ (prepare_multiline_grouped_data m).2.map Prod.fst ↔
            ∃ p ∈ m, ∃ kv ∈ p.2, normLabel kv.1 = c)
      ∧ (∀ c, c ∈ (prepare_multiline_grouped_data m).2.map Prod.fst →
            dictGet (prepare_multiline_grouped_data m).2 c =
              some ((prepare_multiline_grouped_data m).1.map
                (fun d => recordedCount (dictGetD m d []) c))))
    ∧ prepare_multiline_grouped_data [] = ([], [])
    ∧ prepare_multiline_grouped_data mEx2 =
        (["2025-03-06", "2025-03-07"], [("a", [1, 3]), ("b", [2, 0])]) := by
  refine ⟨fun m hv hcl => ⟨⟨xValuesOf_sorted m, xValuesOf_perm m⟩, ?_, ?_, ?_⟩, by decide, by decide⟩
  · show ((seriesOf m).map Prod.fst).Nodup
    rw [seriesOf_keys]
    exact nodup_fixKeys _ (nodup_unionKeysSet m)
  · intro c
    show c ∈ (seriesOf m).map Prod.fst ↔ _
    rw [seriesOf_keys]
    exact mem_seriesKeys m c
  · intro c hc
    exact prepare_series_value m hv hcl c hc

/-- Witness for C1 at the spec's concrete example mapping. -/
theorem C1_toTimeSeries_spec_witness :
    ValidMapping mEx2 ∧ NoNullNoneClash mEx2 ∧
    dictGet (prepare_multiline_grouped_data mEx2).2 "a" =
      some ((prepare_multiline_grouped_data mEx2).1.map
        (fun d => recordedCount (dictGetD mEx2 d []) "a")) :=
  ⟨by decide, by decide,
   (C1_toTimeSeries_spec.1 mEx2 (by decide) (by decide)).2.2.2 "a" (by decide)⟩

/-- Claim C1 counterexample: on a date carrying both a literal `"None"`
label (count 5) and a `"null"` label (count 3), the output's only series
entry for `"None"` is 3, not the count 5 recorded under `"None"` — the
renaming collides with the literal label and overwrites it. -/
theorem C1_toTimeSeries_counterexample :
    (prepare_multiline_grouped_data [("d", [("None", 5), ("null", 3)])]).2 = [("None", [3])]
    ∧ dictGet [("None", (5 : Nat)), ("null", 3)] "None" = some 5
    ∧ (3 : Nat) ≠ 5 := by decide

/-- Claim C10: alignment invariant — every series produced by
`prepare_multiline_grouped_data` has exactly one numeric value per date
key, i.e. its length equals the length of the sorted x-axis. -/
theorem C10_series_alignment (m : GroupedData) (s : String × List Nat)
    (hs : s ∈ (prepare_multiline_grouped_data m).2) :
    s.2.length = (prepare_multiline_grouped_data m).1.length := by
  obtain ⟨k, hk, he⟩ := List.mem_map.1 hs
  rw [← he]
  exact List.length_map _ _

/-- Witness for C10 at the spec's concrete example mapping. -/
theorem C10_series_alignment_witness :
    ("a", [1, 3]) ∈ (prepare_multiline_grouped_data mEx2).2 ∧
    (("a", [1, 3]) : String × List Nat).2.length =
      (prepare_multiline_grouped_data mEx2).1.length :=
  ⟨by decide, C10_series_alignment mEx2 ("a", [1, 3]) (by decide)⟩

-- ===== Claim theorems: the null → None renaming (C9) =====

theorem find?_norm_of_no_none (day : DayData) :
    "None" ∉ day.map Prod.fst →
    (day.find? (fun kv => normLabel kv.1 == "None")).map Prod.snd = dictGet day "null" := by
  induction day with
  | nil => intro _; simp [dictGet]
  | cons kv rest ih =>
    intro h
    simp only [List.map_cons, List.mem_cons] at h
    push_neg at h
    by_cases hk : kv.1 = "null"
    · rw [List.find?_cons_of_pos _ (by simp [normLabel, hk])]
      simp [dictGet, hk]
    · have hkN : ¬ kv.1 = "None" := fun hh => h.1 hh.symm
      rw [List.find?_cons_of_neg _ (by simp [normLabel, hk, hkN])]
      rw [ih h.2]
      simp [dictGet, hk]

/-- Claim C9 (amended): provided the date's mapping does not also carry a
literal `"None"` label, every count recorded under `"null"` on any date
appears, numerically unchanged, under the label `"None"` in the output
series at that date's position on the sorted x-axis. (When a date carries
both `"null"` and `"None"`, the code's renaming collides the two labels in
one dict and only the later-inserted entry's count survives, so the
unrestricted claim is false.) -/
theorem C9_null_renaming_preserves (m : GroupedData) (date : String) (day : DayData)
    (v : Nat) (hv : ValidMapping m) (hcl : NoNullNoneClash m)
    (hmem : (date, day) ∈ m) (hval : dictGet day "null" = some v) :
    ∃ s, dictGet (prepare_multiline_grouped_data m).2 "None" = some s ∧
      s[(prepare_multiline_grouped_data m).1.indexOf date]? = some v := by
  have hnullmem : ("null", v) ∈ day := mem_of_dictGet day "null" v hval
  have hkeymem : "None" ∈ (prepare_multiline_grouped_data m).2.map Prod.fst := by
    show "None" ∈ (seriesOf m).map Prod.fst
    rw [seriesOf_keys, mem_seriesKeys]
    exact ⟨(date, day), hmem, ("null", v), hnullmem, by simp [normLabel]⟩
  have hser := prepare_series_value m hv hcl "None" hkeymem
  refine ⟨_, hser, ?_⟩
  have hdm : date ∈ (prepare_multiline_grouped_data m).1 := by
    have : date ∈ m.map Prod.fst := List.mem_map_of_mem Prod.fst hmem
    exact ((xValuesOf_perm m).mem_iff).2 this
  have hlt : (prepare_multiline_grouped_data m).1.indexOf date <
      (prepare_multiline_grouped_data m).1.length := List.indexOf_lt_length.2 hdm
  rw [List.getElem?_map, List.getElem?_eq_getElem hlt, List.getElem_indexOf hlt]
  have hday : dictGetD m date [] = day := by
    simp [dictGetD, dictGet_of_mem_nodup m date day hv.1 hmem]
  have hNone : "None" ∉ day.map Prod.fst := by
    intro hN
    exact hcl (date, day) hmem ⟨List.mem_map_of_mem Prod.fst hnullmem, hN⟩
  show some (recordedCount (dictGetD m date []) "None") = some v
  rw [hday]
  unfold recordedCount
  rw [find?_norm_of_no_none day hNone, hval]
  rfl

/-- The concrete witness mapping for C9. -/
def mW : GroupedData := [("2025-02-01", [("null", 7)])]

/-- Witness for C9: a count of 7 recorded under `"null"` reappears under
`"None"` at its date's x-axis position. -/
theorem C9_null_renaming_preserves_witness :
    ValidMapping mW ∧ NoNullNoneClash mW ∧
    ∃ s, dictGet (prepare_multiline_grouped_data mW).2 "None" = some s ∧
      s[(prepare_multiline_grouped_data mW).1.indexOf "2025-02-01"]? = some 7 :=
  ⟨by decide, by decide,
   C9_null_renaming_preserves mW "2025-02-01" [("null", 7)] 7
     (by decide) (by decide) (by decide) (by decide)⟩

/-- Claim C9 counterexample: on a date recording both `"null" ↦ 3` and
`"None" ↦ 5`, the output series for `"None"` is `[5]` — the count 3
recorded under `"null"` has been overwritten, not preserved. -/
theorem C9_null_renaming_counterexample :
    (prepare_multiline_grouped_data [("2025-01-01", [("null", 3), ("None", 5)])]).2
      = [("None", [5])]
    ∧ (5 : Nat) ≠ 3 := by decide

-- ===== Report assembler data model (src/generatepdf.py lines 281-514) =====

/-- The fixed paragraph styles of the `custom_styles` table
(src/generatepdf.py lines 49-64). -/
inductive Style where
  | title
  | heading1
  | heading2
  | normal
  | ai
  | tocStyle
deriving DecidableEq

/-- One flowable appended to `elements`: the content-block sequence handed
to the document layout engine. Chart flowables record the chart function's
arguments (width, height, data, labels/series, title, axis labels). -/
inductive Block where
  | nextPageTemplate (name : String)
  | pageBreak
  | toc
  | sectionCover (title : String)
  | paragraph (style : Style) (text : String)
  | spacer (w h : Nat)
  | barChart (w h : Nat) (values : List Nat) (labels : List String)
      (title xLabel yLabel : String)
  | multiLineChart (w h : Nat) (x : List String) (series : List (String × List Nat))
      (title xLabel yLabel : String)
  | table (rows : List (List String))
deriving DecidableEq

/-- The Athena output contract (spec §4.1): the `time_series_overall`
block and the five `grouped_data` dimensions, each a
DateKeyedCategoryMapping. -/
structure AthenaData where
  ts_dates : List String
  ts_counts : List Nat
  resolution_reason : GroupedData
  device_type : GroupedData
  sensor_type : GroupedData
  event_type : GroupedData
  industry : GroupedData
deriving DecidableEq

/-- The Oracle output contract: trailing-4-week actual and predicted
counts and the next-4-week prediction. -/
structure ForecastSummary where
  actual_last_4w : Nat
  predicted_last_4w : Nat
  predicted_next_4w : Nat
deriving DecidableEq

/-- The trend sentence of the forecast section, with the chosen wording
interpolated (src/generatepdf.py line 477). -/
def trendSentence (trend : String) : String :=
  "Based on the AI model, an " ++ trend ++
    " in alert counts is forecasted for the next four weeks. This predictive insight enables early resource allocation to address potential challenges."

/-- The insufficient-historical-data notice paragraph
(src/generatepdf.py lines 493-497). -/
def insufficientText : String :=
  "There is not enough historical data to generate reliable predictions at this time. As more alert data is collected, predictive forecasting will become available in future reports."

/-- One category-dimension section (heading, blurb, bar chart of the
aggregate, multi-line chart of the time series, page break) — the block
shape each of the five analysis sections of `generate_pdf` follows. -/
def categorySection (heading blurb : String) (g : GroupedData)
    (barTitle barXLabel : String) (barH : Nat) (lineTitle : String) (lineH : Nat) :
    List Block :=
  [Block.paragraph .heading1 heading, Block.spacer 1 12, Block.paragraph .normal blurb,
   Block.barChart 400 barH ((aggregate_grouped_values g).map Prod.snd)
     ((aggregate_grouped_values g).map Prod.fst) barTitle barXLabel "Alerts",
   Block.spacer 1 12,
   Block.multiLineChart 400 lineH (prepare_multiline_grouped_data g).1
     (prepare_multiline_grouped_data g).2 lineTitle "Date" "Alerts",
   Block.spacer 1 12, Block.pageBreak]

/-- The element sequence `generate_pdf` builds after both fetches
succeed or degrade (src/generatepdf.py lines 299-499), in source order:
TOC, Analytics section cover, Introduction, Alert Count Over Time, the
five category sections, Conclusion, and finally the fork on forecast
presence (`oracle_blank`): the AI Insights section or the
Predictive Analytics notice. -/
def buildElements (athena : AthenaData) (oracle : Option ForecastSummary) : List Block :=
  [Block.nextPageTemplate "Body", Block.pageBreak,
   Block.paragraph .heading1 "Table of Contents", Block.toc, Block.pageBreak,
   Block.sectionCover "Analytics Section", Block.pageBreak,
   Block.paragraph .heading1 "Introduction", Block.spacer 1 24,
   Block.paragraph .normal
     "This report provides an in-depth analysis of alert data collected over the past year. It examines system performance, identifies trends, and highlights areas for improvement. The following sections break down the data from various angles and provide insights to guide future actions.",
   Block.spacer 1 24,
   Block.paragraph .heading2 "Alert Count Over Time", Block.spacer 1 12,
   Block.paragraph .normal
     "The line graph below highlights fluctuations in alert volume over time, helping to quickly identify periods of high activity that may warrant further investigation.",
   Block.multiLineChart 400 250 athena.ts_dates [("Alert Count", athena.ts_counts)]
     "Alert Count Over Time" "Date" "Alerts",
   Block.spacer 1 12, Block.pageBreak]
  ++ categorySection "Resolutions Analysis"
       "This section breaks down the types of resolutions applied to alerts. The charts below display aggregate counts and trends over time, helping assess the effectiveness of various resolution strategies."
       athena.resolution_reason "Resolution Analysis" "Resolution Type" 400
       "Resolution Trends Over Time" 400
  ++ categorySection "Device Analysis"
       "This section examines alert distributions across different device types, helping identify areas where targeted maintenance or optimization may be needed."
       athena.device_type "Device Analysis" "Device Type" 350
       "Device Trends Over Time" 400
  ++ categorySection "Sensor Analysis"
       "Sensor data is critical for understanding alert generation. The charts below display sensor-specific alert counts and their trends over time."
       athena.sensor_type "Sensor Analysis" "Sensor Type" 350
       "Sensor Trends Over Time" 350
  ++ categorySection "Industry Analysis"
       "This section segments alert data by industry, revealing trends that may highlight market-specific challenges and opportunities."
       athena.industry "Industry Analysis" "Industry" 450
       "Industry Trends Over Time" 350
  ++ categorySection "Event Analysis"
       "Events can have a significant impact on alert patterns. This section breaks down alerts by event type and examines their trends over time."
       athena.event_type "Event Analysis" "Event Type" 400
       "Event Trends Over Time" 350
  ++ [Block.paragraph .heading1 "Conclusion", Block.spacer 1 12,
      Block.paragraph .normal
        "In summary, the analysis above reveals key trends in alert data across multiple dimensions. The detailed breakdown—from overall trends to device, sensor, industry, and event insights—provides a comprehensive view of system performance, enabling proactive adjustments and strategic planning.",
      Block.spacer 1 12]
  ++ (match oracle with
      | some f =>
        [Block.pageBreak, Block.sectionCover "AI Insights", Block.pageBreak,
         Block.paragraph .heading1 "Past Month & Next Month Analysis", Block.spacer 1 12,
         Block.paragraph .normal
           "This section compares actual alert data from the past month with AI-generated forecasts. The analysis identifies discrepancies between observed data and predictions, refining future forecasts.",
         Block.spacer 1 12,
         Block.paragraph .heading2 "Past Month Alert Comparison", Block.spacer 1 12,
         Block.paragraph .normal
           "The bar chart below contrasts the actual alert counts from the past 4 weeks with AI predictions, helping evaluate forecasting accuracy.",
         Block.barChart 350 250 [f.actual_last_4w, f.predicted_last_4w]
           ["Actual Last 4 Weeks", "Predicted Last 4 Weeks"]
           "Past Month Alert Comparison" "Category" "Alert Count",
         Block.spacer 1 12,
         Block.paragraph .heading2 "Next Month Forecast", Block.spacer 1 12,
         Block.paragraph .normal
           (trendSentence
             (if f.actual_last_4w < f.predicted_next_4w then "increase" else "decrease")),
         Block.spacer 1 12,
         Block.table [["Expected Alerts"], [toString f.predicted_next_4w]],
         Block.spacer 1 12, Block.pageBreak]
      | none =>
        [Block.pageBreak, Block.paragraph .heading1 "Predictive Analytics",
         Block.paragraph .normal insufficientText,
         Block.spacer 1 12, Block.pageBreak])

-- ===== Upstream data fetching (src/generatepdf.py lines 185-214) =====

/-- The observable outcome of one upstream POST: a transport failure, a
timeout (the 60-second cap), or an HTTP response with a status code and a
body that either parses (`some`) or is malformed JSON (`none`). -/
inductive UpstreamResponse (α : Type) where
  | netFail
  | timeout
  | status (code : Nat) (body : Option α)

/-- The exception getAthenaData re-raises, by failure kind. -/
inductive FetchError where
  | transport
  | timedOut
  | httpStatus (code : Nat)
  | malformedBody
deriving DecidableEq

/-- A fetch outcome that is a failure: transport error, timeout, non-2xx
status (`raise_for_status`), or a body `json.loads` rejects. -/
def fetchFailed {α : Type} : UpstreamResponse α → Prop
  | .netFail => True
  | .timeout => True
  | .status code body => ¬(200 ≤ code ∧ code ≤ 299) ∨ body.isNone = true

instance {α : Type} (r : UpstreamResponse α) : Decidable (fetchFailed r) :=
  match r with
  | .netFail => .isTrue trivial
  | .timeout => .isTrue trivial
  | .status _ _ => inferInstanceAs (Decidable (_ ∨ _))

/-- Embeds `getAthenaData` (src/generatepdf.py lines 185-197): any
exception — transport error, timeout, `raise_for_status` on a non-2xx
response, or a JSON parse failure — is re-raised (`raise e`). -/
def getAthenaData (resp : UpstreamResponse AthenaData) : Except FetchError AthenaData :=
  match resp with
  | .netFail => .error .transport
  | .timeout => .error .timedOut
  | .status code body =>
    if 200 ≤ code ∧ code ≤ 299 then
      match body with
      | some d => .ok d
      | none => .error .malformedBody
    else .error (.httpStatus code)

/-- Embeds `getOracleData` (src/generatepdf.py lines 199-214): the same
call shape, but every exception is swallowed and `response_dict = {}` is
returned; a successful parse returns the parsed body (`none` models the
empty dict, `some` a ForecastSummary). -/
def getOracleData (resp : UpstreamResponse (Option ForecastSummary)) :
    Option ForecastSummary :=
  match resp with
  | .netFail => none
  | .timeout => none
  | .status code body =>
    if 200 ≤ code ∧ code ≤ 299 then
      match body with
      | some v => v
      | none => none
    else none

/-- Embeds the fetch-and-assemble core of `generate_pdf`
(src/generatepdf.py lines 281-514): the Athena fetch may raise, aborting
the build with no document; otherwise the element sequence is built with
`oracle_blank = not bool(oracle_data)` deciding the forecast fork. -/
def generate_pdf (athenaResp : UpstreamResponse AthenaData)
    (oracleResp : UpstreamResponse (Option ForecastSummary)) :
    Except FetchError (List Block) :=
  match getAthenaData athenaResp with
  | .error e => .error e
  | .ok athena => .ok (buildElements athena (getOracleData oracleResp))

-- ===== Section outline =====

/-- One entry of the document outline: a TOC-visible heading (a paragraph
styled Heading1 or Heading2, exactly what the TOC callback intercepts), or
a chart with its title. -/
inductive OutlineItem where
  | heading (text : String)
  | bar (title : String)
  | line (title : String)
deriving DecidableEq

/-- The outline of an element sequence: its headings and charts in order. -/
def sectionOutline : List Block → List OutlineItem
  | [] => []
  | Block.paragraph .heading1 t :: rest => .heading t :: sectionOutline rest
  | Block.paragraph .heading2 t :: rest => .heading t :: sectionOutline rest
  | Block.barChart _ _ _ _ t _ _ :: rest => .bar t :: sectionOutline rest
  | Block.multiLineChart _ _ _ _ t _ _ :: rest => .line t :: sectionOutline rest
  | _ :: rest => sectionOutline rest

/-- Claim C4 (amended): the assembler emits, for every input, the fixed
outline — TOC heading, Introduction, the alert-count-over-time section,
the five category sections in the order resolution, device, sensor,
industry, event (each a heading, a bar chart of the aggregate, and a
multi-line chart of the time series), then the Conclusion, and only then
the fork on ForecastSummary presence: the "Past Month & Next Month
Analysis" section (with its comparison bar chart) when the forecast is
present, the "Predictive Analytics" notice when it is absent. The fork is
thus the final section of the document, after the Conclusion — not
between the alert-count section and the category sections as the claim
states, and the Conclusion is not last. -/
theorem C4_section_order (a : AthenaData) (o : Option ForecastSummary) :
    sectionOutline (buildElements a o) =
      [OutlineItem.heading "Table of Contents", OutlineItem.heading "Introduction",
       OutlineItem.heading "Alert Count Over Time", OutlineItem.line "Alert Count Over Time",
       OutlineItem.heading "Resolutions Analysis", OutlineItem.bar "Resolution Analysis",
       OutlineItem.line "Resolution Trends Over Time",
       OutlineItem.heading "Device Analysis", OutlineItem.bar "Device Analysis",
       OutlineItem.line "Device Trends Over Time",
       OutlineItem.heading "Sensor Analysis", OutlineItem.bar "Sensor Analysis",
       OutlineItem.line "Sensor Trends Over Time",
       OutlineItem.heading "Industry Analysis", OutlineItem.bar "Industry Analysis",
       OutlineItem.line "Industry Trends Over Time",
       OutlineItem.heading "Event Analysis", OutlineItem.bar "Event Analysis",
       OutlineItem.line "Event Trends Over Time",
       OutlineItem.heading "Conclusion"]
      ++ (match o with
          | some _ =>
            [OutlineItem.heading "Past Month & Next Month Analysis",
             OutlineItem.heading "Past Month Alert Comparison",
             OutlineItem.bar "Past Month Alert Comparison",
             OutlineItem.heading "Next Month Forecast"]
          | none => [OutlineItem.heading "Predictive Analytics"]) := by
  cases o <;> rfl

/-- A concrete Athena payload for counterexamples and witnesses. -/
def aEx : AthenaData := ⟨[], [], [], [], [], [], []⟩

/-- A concrete forecast for counterexamples and witnesses. -/
def fEx : ForecastSummary := ⟨10, 12, 8⟩

/-- Claim C4 counterexample: at a concrete input with a forecast present,
the Conclusion heading precedes the "Past Month & Next Month Analysis"
heading, that forecast section is not before the Resolutions section, and
the outline does not end with the Conclusion — refuting the claimed order
(fork between the alert-count section and the category sections, with the
Conclusion as final section). -/
theorem C4_section_order_counterexample :
    (sectionOutline (buildElements aEx (some fEx))).indexOf (.heading "Conclusion")
        < (sectionOutline (buildElements aEx (some fEx))).indexOf
            (.heading "Past Month & Next Month Analysis")
    ∧ ¬((sectionOutline (buildElements aEx (some fEx))).indexOf
            (.heading "Past Month & Next Month Analysis")
          < (sectionOutline (buildElements aEx (some fEx))).indexOf
              (.heading "Resolutions Analysis"))
    ∧ (sectionOutline (buildElements aEx (some fEx))).getLast?
        ≠ some (.heading "Conclusion") := by decide

/-- Claim C5: with a forecast present the document contains the
"Past Month & Next Month Analysis" section, its 2-bar comparison chart of
`actual_last_4w` versus `predicted_last_4w`, its 1-row forecast table
showing `predicted_next_4w`, and a trend sentence worded "increase"
exactly when `predicted_next_4w > actual_last_4w` and "decrease"
otherwise; with the forecast absent the build still succeeds and contains
the insufficient-historical-data notice instead of that section. -/
theorem C5_forecast_section (a : AthenaData) (f : ForecastSummary) :
    (Block.paragraph .heading1 "Past Month & Next Month Analysis" ∈ buildElements a (some f)
     ∧ Block.barChart 350 250 [f.actual_last_4w, f.predicted_last_4w]
         ["Actual Last 4 Weeks", "Predicted Last 4 Weeks"]
         "Past Month Alert Comparison" "Category" "Alert Count" ∈ buildElements a (some f)
     ∧ Block.table [["Expected Alerts"], [toString f.predicted_next_4w]]
         ∈ buildElements a (some f)
     ∧ ∃ t : String, (t = "increase" ↔ f.actual_last_4w < f.predicted_next_4w)
         ∧ (t = "increase" ∨ t = "decrease")
         ∧ Block.paragraph .normal (trendSentence t) ∈ buildElements a (some f))
    ∧ (Block.paragraph .heading1 "Predictive Analytics" ∈ buildElements a none
       ∧ Block.paragraph .normal insufficientText ∈ buildElements a none
       ∧ Block.paragraph .heading1 "Past Month & Next Month Analysis"
           ∉ buildElements a none) := by
  refine ⟨⟨?_, ?_, ?_, ?_⟩, ?_, ?_, ?_⟩
  · simp [buildElements, categorySection]
  · simp [buildElements, categorySection]
  · simp [buildElements, categorySection]
  · refine ⟨if f.actual_last_4w < f.predicted_next_4w then "increase" else "decrease",
      ?_, ?_, ?_⟩
    · by_cases h : f.actual_last_4w < f.predicted_next_4w <;> simp [h]
    · by_cases h : f.actual_last_4w < f.predicted_next_4w
      · left; simp [h]
      · right; simp [h]
    · simp [buildElements, categorySection]
  · simp [buildElements, categorySection]
  · simp [buildElements, categorySection]
  · simp [buildElements, categorySection]

/-- Claim C6: every failing Oracle fetch — transport error, timeout,
non-2xx status, or malformed body — yields the empty result without
raising, and the report build proceeds on the forecast-absent branch. -/
theorem C6_oracle_failure_degrades (resp : UpstreamResponse (Option ForecastSummary))
    (hfail : fetchFailed resp) :
    getOracleData resp = none ∧
      ∀ a : AthenaData,
        generate_pdf (.status 200 (some a)) resp = .ok (buildElements a none) := by
  have hnone : getOracleData resp = none := by
    cases resp with
    | netFail => rfl
    | timeout => rfl
    | status code body =>
      unfold fetchFailed at hfail
      cases body with
      | none =>
        show (if 200 ≤ code ∧ code ≤ 299 then (none : Option ForecastSummary) else none)
          = none
        exact ite_self none
      | some v =>
        rcases hfail with h | h
        · show (if 200 ≤ code ∧ code ≤ 299 then v else none) = none
          rw [if_neg h]
        · simp at h
  refine ⟨hnone, fun a => ?_⟩
  show Except.ok (buildElements a (getOracleData resp)) = Except.ok (buildElements a none)
  rw [hnone]

/-- Witness for C6: a transport failure of the Oracle fetch degrades to
the empty result and the forecast-absent document. -/
theorem C6_oracle_failure_degrades_witness :
    fetchFailed (UpstreamResponse.netFail : UpstreamResponse (Option ForecastSummary)) ∧
    getOracleData .netFail = none ∧
    generate_pdf (.status 200 (some aEx)) .netFail = .ok (buildElements aEx none) :=
  ⟨trivial, (C6_oracle_failure_degrades .netFail trivial).1,
   (C6_oracle_failure_degrades .netFail trivial).2 aEx⟩

/-- Claim C7: every failing Athena fetch makes `getAthenaData` raise, and
the failure propagates out of `generate_pdf` unchanged, whatever the
Oracle outcome — no partial document is emitted and no retry occurs. -/
theorem C7_athena_failure_aborts (resp : UpstreamResponse AthenaData)
    (hfail : fetchFailed resp) :
    ∃ e : FetchError, getAthenaData resp = .error e ∧
      ∀ oracleResp, generate_pdf resp oracleResp = .error e := by
  have hget : ∃ e : FetchError, getAthenaData resp = .error e := by
    cases resp with
    | netFail => exact ⟨.transport, rfl⟩
    | timeout => exact ⟨.timedOut, rfl⟩
    | status code body =>
      unfold fetchFailed at hfail
      cases body with
      | none =>
        by_cases h2 : 200 ≤ code ∧ code ≤ 299
        · refine ⟨.malformedBody, ?_⟩
          show (if 200 ≤ code ∧ code ≤ 299
              then (Except.error FetchError.malformedBody : Except FetchError AthenaData)
              else .error (.httpStatus code)) = .error .malformedBody
          rw [if_pos h2]
        · refine ⟨.httpStatus code, ?_⟩
          show (if 200 ≤ code ∧ code ≤ 299
              then (Except.error FetchError.malformedBody : Except FetchError AthenaData)
              else .error (.httpStatus code)) = .error (.httpStatus code)
          rw [if_neg h2]
      | some d =>
        rcases hfail with h | h
        · refine ⟨.httpStatus code, ?_⟩
          show (if 200 ≤ code ∧ code ≤ 299
              then (Except.ok d : Except FetchError AthenaData)
              else .error (.httpStatus code)) = .error (.httpStatus code)
          rw [if_neg h]
        · simp at h
  obtain ⟨e, he⟩ := hget
  refine ⟨e, he, fun oracleResp => ?_⟩
  unfold generate_pdf
  rw [he]

/-- Witness for C7: a timed-out Athena fetch aborts the whole build. -/
theorem C7_athena_failure_aborts_witness :
    fetchFailed (UpstreamResponse.timeout : UpstreamResponse AthenaData) ∧
    ∃ e : FetchError, getAthenaData (.timeout : UpstreamResponse AthenaData) = .error e ∧
      generate_pdf .timeout .netFail = .error e := by
  refine ⟨trivial, ?_⟩
  obtain ⟨e, h1, h2⟩ := C7_athena_failure_aborts .timeout trivial
  exact ⟨e, h1, h2 .netFail⟩

-- ===== The HTTP handler create_report (src/main.py, src/schemas.py) =====

/-- A Python attribute value of the request model. -/
inductive PyValue where
  | str (s : String)
  | strList (l : List String)
deriving DecidableEq

/-- The ReportCreate request schema (src/schemas.py lines 5-16): exactly
these ten fields, dates modelled as ISO strings. -/
structure ReportCreate where
  username : String
  title : String
  date_start : String
  date_end : String
  industry : List String
  continents : List String
  alerts : List String
  devices : List String
  resolutions : List String
  events : List String

/-- Python attribute access on a ReportCreate instance: defined exactly on
the schema's declared fields, `none` (AttributeError) on anything else. -/
def ReportCreate.getattr (r : ReportCreate) : String → Option PyValue
  | "username" => some (.str r.username)
  | "title" => some (.str r.title)
  | "date_start" => some (.str r.date_start)
  | "date_end" => some (.str r.date_end)
  | "industry" => some (.strList r.industry)
  | "continents" => some (.strList r.continents)
  | "alerts" => some (.strList r.alerts)
  | "devices" => some (.strList r.devices)
  | "resolutions" => some (.strList r.resolutions)
  | "events" => some (.strList r.events)
  | _ => none

/-- The ReportResponse schema (src/schemas.py lines 19-29). -/
structure ReportResponse where
  id : Nat
  title : String
  date_start : String
  date_end : String
  industry : List String
  pdf_id : Nat

/-- An attribute read that raises AttributeError when the name is not a
field of the request model. -/
def attrOr (r : ReportCreate) (name : String) : Except String PyValue :=
  match r.getattr name with
  | some v => .ok v
  | none => .error ("AttributeError: " ++ name)

/-- Embeds the POST /report handler `create_report` (src/main.py lines
84-109). Attribute reads occur in source order: the two arguments of the
local `generate_pdf(title, industry)` call, then the keyword arguments of
the `Report(...)` constructor — `title`, `created_at`, `industry`,
`location`, `alerts`, `username`. The reads `created_at` and `location`
are not fields of ReportCreate, so the first of them raises. Database-
assigned ids are modelled as 0 (the handler never reaches its return). -/
def create_report (r : ReportCreate) : Except String ReportResponse := do
  let _pdfTitle ← attrOr r "title"
  let _pdfIndustry ← attrOr r "industry"
  let _title ← attrOr r "title"
  let _createdAt ← attrOr r "created_at"
  let _industry ← attrOr r "industry"
  let _location ← attrOr r "location"
  let _alerts ← attrOr r "alerts"
  let _username ← attrOr r "username"
  return { id := 0, title := r.title, date_start := r.date_start,
           date_end := r.date_end, industry := r.industry, pdf_id := 0 }

/-- Claim C3: for every valid ReportCreate request the handler raises an
AttributeError (on `created_at`, the first of the two missing attributes
it reads) and never returns a successful ReportResponse. -/
theorem C3_create_report_always_raises (r : ReportCreate) :
    create_report r = .error "AttributeError: created_at" ∧
      ∀ resp : ReportResponse, create_report r ≠ .ok resp := by
  refine ⟨rfl, fun resp h => ?_⟩
  rw [show create_report r = .error "AttributeError: created_at" from rfl] at h
  exact Except.noConfusion h

end Hermes
